import Mathlib

/-!
# Verification of the milklog data layer (`src/app.py`)

A shallow embedding of the milklog application's data layer:

* the `milk_records` table and its CHECK constraints (`init_db`, app.py:376-391),
* the pivot aggregation of `records_screen` (app.py:1364-1407),
* the insertion paths `add_record` / `add` / `bulk_add` / `import_csv`,
* the soft delete / restore / update operations,
* the idempotent schema migration of `init_db` (app.py:293-485).

SQLite `REAL` values are modelled as rationals (`ℚ`); exact arithmetic agrees
with the floating point code on all concrete inputs used here, which avoid
representation-dependent digits.  `TEXT` dates are kept as strings, ordered
lexicographically by character code exactly as SQLite orders ASCII text.
`NULL`-able fields become `Option`s, and Python/SQL failures (exceptions,
failed CHECKs) become `Option`/absence of a result.
-/

/- Batteries marks the `Rat` field operations `[irreducible]`, which blocks
kernel evaluation of concrete rational arithmetic by `decide`/`rfl`.  Restore
the default reducibility so concrete pivot values can be computed. -/
set_option allowUnsafeReducibility true
attribute [semireducible] Rat.add Rat.sub Rat.mul Rat.inv Rat.ofScientific

/-! ## String helpers (Python `str.strip`, `int(...)`, SQLite TEXT order) -/

/-- ASCII whitespace as stripped by Python's `str.strip()` (the identifiers in
this development are ASCII, so the unicode cases are irrelevant). -/
def isPySpace (c : Char) : Bool :=
  c = ' ' || c = '\t' || c = '\n' || c = '\x0d' || c = '\x0b' || c = '\x0c'

/-- `str.strip()` on the character list of a string. -/
def stripChars (cs : List Char) : List Char :=
  ((cs.dropWhile isPySpace).reverse.dropWhile isPySpace).reverse

/-- Python's `s.strip()`. -/
def pyStrip (s : String) : String :=
  ⟨stripChars s.data⟩

/-- `s.strip() or None`: the empty string becomes SQL `NULL`
(`note.strip() or None` in `add_record`, app.py:1165-1166). -/
def stripOrNone (s : String) : Option String :=
  if pyStrip s = "" then none else some (pyStrip s)

/-- The numeric value of a list of decimal digits. -/
def digitsVal (cs : List Char) : Nat :=
  cs.foldl (fun n c => n * 10 + (c.toNat - 48)) 0

/-- Python's `int(str)` as used by `cow_key` (app.py:1397-1399) and the `last`
query parameter (app.py:1368): optional surrounding whitespace, an optional
sign, then decimal digits; anything else raises `ValueError`, modelled as
`none`.  (Underscore digit separators are not modelled; no input in any claim
uses them.) -/
def pyInt? (s : String) : Option Int :=
  match stripChars s.data with
  | [] => none
  | c :: rest =>
    let (neg, ds) :=
      if c = '-' then (true, rest)
      else if c = '+' then (false, rest)
      else (false, c :: rest)
    if ds ≠ [] ∧ ds.all (·.isDigit) then
      some (if neg then -(digitsVal ds : Int) else (digitsVal ds : Int))
    else none

/-- Byte-wise comparison of two character lists: `x ≤ y` in the order SQLite
uses for ASCII `TEXT` values such as ISO dates. -/
def charListLe : List Char → List Char → Bool
  | [], _ => true
  | _ :: _, [] => false
  | a :: as, b :: bs =>
    if a < b then true else if b < a then false else charListLe as bs

/-- SQLite's `ORDER BY` comparison on TEXT dates. -/
def dateLE (a b : String) : Prop :=
  charListLe a.data b.data = true

instance : DecidableRel dateLE :=
  fun _ _ => inferInstanceAs (Decidable (_ = true))

/-- The strict version of [`dateLE`]: strictly earlier date. -/
def dateLT (a b : String) : Prop :=
  dateLE a b ∧ a ≠ b

theorem charListLe_total : ∀ x y : List Char,
    charListLe x y = true ∨ charListLe y x = true
  | [], _ => .inl rfl
  | _ :: _, [] => .inr rfl
  | a :: as, b :: bs => by
    rcases lt_trichotomy a b with h | h | h
    · left; simp [charListLe, h]
    · subst h
      rcases charListLe_total as bs with ih | ih <;>
        simp [charListLe, lt_irrefl, ih]
    · right; simp [charListLe, h]

theorem charListLe_trans : ∀ {x y z : List Char},
    charListLe x y = true → charListLe y z = true → charListLe x z = true
  | [], _, _, _, _ => rfl
  | _ :: _, [], _, h, _ => by simp [charListLe] at h
  | _ :: _, _ :: _, [], _, h => by simp [charListLe] at h
  | a :: as, b :: bs, c :: cs, h1, h2 => by
    by_cases hab : a < b
    · by_cases hbc : b < c
      · simp [charListLe, lt_trans hab hbc]
      · by_cases hcb : c < b
        · simp [charListLe, hbc, hcb] at h2
        · have : b = c := le_antisymm (not_lt.1 hcb) (not_lt.1 hbc)
          subst this; simp [charListLe, hab]
    · by_cases hba : b < a
      · simp [charListLe, hab, hba] at h1
      · have : a = b := le_antisymm (not_lt.1 hba) (not_lt.1 hab)
        subst this
        simp only [charListLe, lt_irrefl, if_false] at h1
        by_cases hbc : a < c
        · simp [charListLe, hbc]
        · by_cases hcb : c < a
          · simp [charListLe, hbc, hcb] at h2
          · simp only [charListLe, lt_irrefl, if_false, hbc, hcb] at h2 ⊢
            exact charListLe_trans h1 h2

instance : IsTotal String dateLE where
  total a b := charListLe_total a.data b.data

instance : IsTrans String dateLE where
  trans _ _ _ h1 h2 := charListLe_trans h1 h2

/-! ## The `milk_records` table -/

/-- A row of the `milk_records` table (schema from `init_db`, app.py:376-391).
`deleted` is stored as the integers 0/1 in SQLite and modelled as `Bool`. -/
structure MilkRecord where
  id : Nat
  cow_number : String
  litres : ℚ
  record_date : String
  session : String
  note : Option String
  tags : Option String
  price_per_litre : Option ℚ
  deleted : Bool
  owner_id : Option Nat
  created_at : String
  edited_at : Option String
deriving DecidableEq

/-- The store: the list of `milk_records` rows in insertion (rowid) order. -/
abbrev MilkDb := List MilkRecord

/-! ## Rounding (Python `round(v, 2)`) -/

/-- Floor of a rational, computed on numerator and denominator (`Rat.den` is
positive, so `Int.fdiv` floors correctly). -/
def qfloor (q : ℚ) : ℤ :=
  Int.fdiv q.num q.den

/-- Round a rational to the nearest integer, ties to even — the rounding used
by Python's builtin `round`. -/
def roundHalfEven (q : ℚ) : ℤ :=
  let f := qfloor q
  let r := q - (f : ℚ)
  if r < 1/2 then f
  else if 1/2 < r then f + 1
  else if f % 2 = 0 then f else f + 1

/-- Python's `round(v, 2)` on our rational model of SQLite REAL values. -/
def round2 (q : ℚ) : ℚ :=
  (roundHalfEven (q * 100) : ℚ) / 100

/-! ## The pivot aggregator of `records_screen` (app.py:1364-1407) -/

/-- `WHERE deleted=0 AND owner_id=?`: the scope used by every query of
`records_screen` (app.py:1374-1391).  A SQL comparison with a `NULL` owner is
never satisfied, matching equality with `some owner`. -/
def recordsFor (db : MilkDb) (owner : Nat) : MilkDb :=
  db.filter (fun r => !r.deleted && r.owner_id == some owner)

/-- Distinct values in first-appearance order, as a Python dict (or a SQL
`DISTINCT` materialised in scan order) produces them; `seen` accumulates the
values already emitted. -/
def dedupFirst (seen : List String) : List String → List String
  | [] => []
  | a :: rest =>
    if a ∈ seen then dedupFirst seen rest
    else a :: dedupFirst (a :: seen) rest

/-- `SELECT DISTINCT record_date ...` before ordering: the distinct dates of
the owner's non-deleted records. -/
def distinctDates (db : MilkDb) (owner : Nat) : List String :=
  dedupFirst [] ((recordsFor db owner).map (·.record_date))

/-- The distinct dates sorted ascending in SQLite TEXT order.  The SQL
`ORDER BY record_date DESC LIMIT ?` of app.py:1374-1380 is modelled below by
reversing this list, taking `last`, and reversing back (as
`dates = list(reversed(...))` does at app.py:1381). -/
def sortedDatesAsc (db : MilkDb) (owner : Nat) : List String :=
  List.insertionSort dateLE (distinctDates db owner)

/-- The date window of the pivot: the `last` most recent distinct dates, in
ascending order (app.py:1374-1381). -/
def pivotDates (db : MilkDb) (owner : Nat) (last : Nat) : List String :=
  (((sortedDatesAsc db owner).reverse).take last).reverse

/-- `sessions = ["AM", "PM"]` (app.py:1382). -/
def pivotSessions : List String := ["AM", "PM"]

/-- The rows of one `GROUP BY cow_number, record_date, session` group
(app.py:1386-1391). -/
def milkGroup (db : MilkDb) (owner : Nat) (cow d s : String) : MilkDb :=
  (recordsFor db owner).filter
    (fun r => r.cow_number == cow && r.record_date == d && r.session == s)

/-- `SUM(litres)` of one group; an absent group contributes `0.0` via
`by_cow[cow].get((d, s), 0.0)` (app.py:1404), which is also the sum of the
empty group. -/
def groupSum (db : MilkDb) (owner : Nat) (cow d s : String) : ℚ :=
  ((milkGroup db owner cow d s).map (·.litres)).sum

/-- The cows appearing in the grouped query result: distinct `cow_number`s of
non-deleted owner rows whose date lies in the window (the keys of `by_cow`,
app.py:1386-1395). -/
def cowsOf (db : MilkDb) (owner : Nat) (dates : List String) : List String :=
  dedupFirst []
    (((recordsFor db owner).filter (fun r => dates.contains r.record_date)).map
      (·.cow_number))

/-- The sort key `(0, int(cow))` / `(1, cow)` of app.py:1397-1399.  Python
tuples with distinct first components never compare their second components,
so the key is a sum of an integer and a string. -/
inductive CowKey where
  | num : Int → CowKey
  | str : String → CowKey
deriving DecidableEq

/-- `cow_key` (app.py:1397-1399): numeric when `int(cow)` succeeds. -/
def cowKey (c : String) : CowKey :=
  match pyInt? c with
  | some n => .num n
  | none => .str c

/-- Comparison of the Python key tuples `(0, int)` and `(1, str)`: every
numeric key precedes every string key. -/
def cowKeyLeB : CowKey → CowKey → Bool
  | .num a, .num b => decide (a ≤ b)
  | .num _, .str _ => true
  | .str _, .num _ => false
  | .str a, .str b => charListLe a.data b.data

/-- The row order of the pivot: `sorted(by_cow.keys(), key=cow_key)`. -/
def cowLE (a b : String) : Prop :=
  cowKeyLeB (cowKey a) (cowKey b) = true

instance : DecidableRel cowLE :=
  fun _ _ => inferInstanceAs (Decidable (_ = true))

theorem cowKeyLeB_total : ∀ x y : CowKey, cowKeyLeB x y = true ∨ cowKeyLeB y x = true
  | .num a, .num b => by simpa [cowKeyLeB] using Int.le_total a b
  | .num _, .str _ => .inl rfl
  | .str _, .num _ => .inr rfl
  | .str a, .str b => charListLe_total a.data b.data

theorem cowKeyLeB_trans : ∀ {x y z : CowKey},
    cowKeyLeB x y = true → cowKeyLeB y z = true → cowKeyLeB x z = true
  | .num _, .num _, .num _, h1, h2 => by
    simp only [cowKeyLeB, decide_eq_true_eq] at *
    exact le_trans h1 h2
  | .num _, .num _, .str _, _, _ => rfl
  | .num _, .str _, .num _, _, h2 => by simp [cowKeyLeB] at h2
  | .num _, .str _, .str _, _, _ => rfl
  | .str _, .num _, _, h1, _ => by simp [cowKeyLeB] at h1
  | .str _, .str _, .num _, _, h2 => by simp [cowKeyLeB] at h2
  | .str _, .str _, .str _, h1, h2 => charListLe_trans h1 h2

instance : IsTotal String cowLE where
  total a b := cowKeyLeB_total (cowKey a) (cowKey b)

instance : IsTrans String cowLE where
  trans _ _ _ h1 h2 := cowKeyLeB_trans h1 h2

/-- One pivot row as assembled at app.py:1406. -/
structure PivotRow where
  cow : String
  cells : List ℚ
  total : ℚ
deriving DecidableEq

/-- The cell values of one cow before rounding: date-major, session `AM`
before `PM` (the nested loops of app.py:1402-1405). -/
def rawCells (db : MilkDb) (owner : Nat) (dates : List String) (cow : String) :
    List ℚ :=
  dates.flatMap (fun d => pivotSessions.map (fun s => groupSum db owner cow d s))

/-- One emitted row: each cell rounded to 2 decimals, the total accumulated at
full precision and rounded once at the end (`row_vals.append(round(v,2));
total += v` then `round(total,2)`, app.py:1401-1406). -/
def mkRow (db : MilkDb) (owner : Nat) (dates : List String) (cow : String) :
    PivotRow :=
  { cow := cow
    cells := (rawCells db owner dates cow).map round2
    total := round2 (rawCells db owner dates cow).sum }

/-- The cows of the window sorted by `cow_key` (app.py:1400). -/
def sortedCows (db : MilkDb) (owner : Nat) (dates : List String) :
    List String :=
  List.insertionSort cowLE (cowsOf db owner dates)

/-- The pivot of `records_screen` (app.py:1374-1407): the ascending date
window and one dense row per cow.  `rows` stays `[]` when the window is
empty (`if dates:` at app.py:1384). -/
def buildPivot (db : MilkDb) (owner : Nat) (last : Nat) :
    List String × List PivotRow :=
  let dates := pivotDates db owner last
  (dates,
    if dates.isEmpty then []
    else (sortedCows db owner dates).map (mkRow db owner dates))

/-- `last = int(request.args.get("last", "7"))` with `ValueError` falling back
to 7 (app.py:1367-1370); `none` models an absent query-string parameter. -/
def parseLast (raw : Option String) : Int :=
  match raw with
  | none => 7
  | some s => (pyInt? s).getD 7

/-- `last = max(1, min(last, 90))` (app.py:1371). -/
def clampLast (n : Int) : Nat :=
  (max 1 (min n 90)).toNat

/-- The pivot as reached from the HTTP request: parse the `last` query-string
parameter, clamp it, and build the pivot. -/
def recordsScreenPivot (db : MilkDb) (owner : Nat) (raw : Option String) :
    List String × List PivotRow :=
  buildPivot db owner (clampLast (parseLast raw))

/-- The three-record store of the spec's pivot scenario (owner 1). -/
def scenarioDb : MilkDb :=
  [ { id := 1, cow_number := "2", litres := 5, record_date := "2025-01-01",
      session := "AM", note := none, tags := none, price_per_litre := none,
      deleted := false, owner_id := some 1, created_at := "t1",
      edited_at := none }
  , { id := 2, cow_number := "2", litres := 3, record_date := "2025-01-01",
      session := "PM", note := none, tags := none, price_per_litre := none,
      deleted := false, owner_id := some 1, created_at := "t2",
      edited_at := none }
  , { id := 3, cow_number := "10", litres := 7, record_date := "2025-01-01",
      session := "AM", note := none, tags := none, price_per_litre := none,
      deleted := false, owner_id := some 1, created_at := "t3",
      edited_at := none } ]

/-! ## Structural lemmas about the pivot -/

theorem mem_dedupFirst : ∀ (l seen : List String) (x : String),
    x ∈ dedupFirst seen l → x ∈ l ∧ x ∉ seen
  | [], _, x, h => by simp [dedupFirst] at h
  | a :: rest, seen, x, h => by
    by_cases hc : a ∈ seen
    · rw [dedupFirst, if_pos hc] at h
      have ih := mem_dedupFirst rest seen x h
      exact ⟨List.mem_cons_of_mem a ih.1, ih.2⟩
    · rw [dedupFirst, if_neg hc] at h
      rcases List.mem_cons.1 h with rfl | h
      · exact ⟨List.mem_cons_self _ _, hc⟩
      · have ih := mem_dedupFirst rest (a :: seen) x h
        exact ⟨List.mem_cons_of_mem a ih.1,
          fun hx => ih.2 (List.mem_cons_of_mem a hx)⟩

theorem nodup_dedupFirst : ∀ (l seen : List String), (dedupFirst seen l).Nodup
  | [], _ => List.nodup_nil
  | a :: rest, seen => by
    by_cases hc : a ∈ seen
    · rw [dedupFirst, if_pos hc]
      exact nodup_dedupFirst rest seen
    · rw [dedupFirst, if_neg hc]
      refine List.Nodup.cons ?_ (nodup_dedupFirst rest (a :: seen))
      intro hmem
      exact (mem_dedupFirst rest (a :: seen) a hmem).2 (List.mem_cons_self _ _)

theorem nodup_distinctDates (db : MilkDb) (owner : Nat) :
    (distinctDates db owner).Nodup :=
  nodup_dedupFirst _ _

theorem sorted_sortedDatesAsc (db : MilkDb) (owner : Nat) :
    (sortedDatesAsc db owner).Sorted dateLE :=
  List.sorted_insertionSort dateLE _

theorem nodup_sortedDatesAsc (db : MilkDb) (owner : Nat) :
    (sortedDatesAsc db owner).Nodup :=
  (List.perm_insertionSort dateLE (distinctDates db owner)).symm.nodup
    (nodup_distinctDates db owner)

/-- The date window is strictly ascending without duplicates and no longer
than the (clamped) window size. -/
theorem pivotDates_props (db : MilkDb) (owner : Nat) (n : Nat) :
    (pivotDates db owner n).Sorted dateLT ∧ (pivotDates db owner n).Nodup ∧
      (pivotDates db owner n).length ≤ n := by
  have hs : (sortedDatesAsc db owner).Sorted dateLT := by
    have := (sorted_sortedDatesAsc db owner).and (nodup_sortedDatesAsc db owner)
    exact this.imp (fun h => ⟨h.1, h.2⟩)
  have hrev : ((sortedDatesAsc db owner).reverse).Pairwise
      (fun a b => dateLT b a) := List.pairwise_reverse.2 hs
  have htake : (((sortedDatesAsc db owner).reverse).take n).Pairwise
      (fun a b => dateLT b a) :=
    hrev.sublist (List.take_sublist n _)
  have hnodup : (pivotDates db owner n).Nodup := by
    have h1 : ((sortedDatesAsc db owner).reverse).Nodup :=
      List.nodup_reverse.2 (nodup_sortedDatesAsc db owner)
    have h2 := h1.sublist (List.take_sublist n _)
    exact List.nodup_reverse.2 h2
  refine ⟨List.pairwise_reverse.2 htake, hnodup, ?_⟩
  calc (pivotDates db owner n).length
      = (((sortedDatesAsc db owner).reverse).take n).length :=
        List.length_reverse _
    _ ≤ n := by simp

/-- Rows are either absent (empty window) or one `mkRow` per sorted cow. -/
theorem rows_cases (db : MilkDb) (owner : Nat) (n : Nat) :
    (buildPivot db owner n).2 =
      (sortedCows db owner (pivotDates db owner n)).map
        (mkRow db owner (pivotDates db owner n)) ∨
    (buildPivot db owner n).2 = [] := by
  unfold buildPivot
  by_cases h : (pivotDates db owner n).isEmpty <;> simp [h]

theorem mem_rows (db : MilkDb) (owner : Nat) (n : Nat) {row : PivotRow}
    (h : row ∈ (buildPivot db owner n).2) :
    ∃ cow ∈ sortedCows db owner (pivotDates db owner n),
      row = mkRow db owner (pivotDates db owner n) cow := by
  rcases rows_cases db owner n with hc | hc
  · rw [hc] at h
    obtain ⟨cow, hcow, rfl⟩ := List.mem_map.1 h
    exact ⟨cow, hcow, rfl⟩
  · rw [hc] at h
    exact absurd h (List.not_mem_nil _)

theorem length_rawCells (db : MilkDb) (owner : Nat) (cow : String) :
    ∀ dates : List String,
      (rawCells db owner dates cow).length = dates.length * pivotSessions.length
  | [] => rfl
  | d :: rest => by
    have ih := length_rawCells db owner cow rest
    simp only [rawCells, List.flatMap_cons, List.length_append,
      List.length_map] at ih ⊢
    rw [List.length_cons, Nat.succ_mul]
    omega

/-! ## Claim C1: the concrete pivot scenario -/

/-- C1.  For an owner whose non-deleted records are exactly
`{cow=2, 2025-01-01, AM, 5.0}`, `{cow=2, 2025-01-01, PM, 3.0}` and
`{cow=10, 2025-01-01, AM, 7.0}`, the pivot with window size 1 returns
`dates = ["2025-01-01"]` and rows
`[{cow:"2", cells:[5.0,3.0], total:8.0}, {cow:"10", cells:[7.0,0.0], total:7.0}]`
in exactly that order (cells date-major, session AM before PM). -/
theorem c1_pivot_scenario :
    buildPivot scenarioDb 1 1 =
      (["2025-01-01"],
        [ { cow := "2", cells := [5, 3], total := 8 }
        , { cow := "10", cells := [7, 0], total := 7 } ]) := by
  decide

/-! ## Claim C2: the row total versus the rounded cells -/

/-- Two records of 0.004 litres for the same cow and date, one per session:
each emitted cell rounds to `0.0`, while the total is computed from the
unrounded values and rounds `0.008` up to `0.01`. -/
def tinyLitresDb : MilkDb :=
  [ { id := 1, cow_number := "1", litres := 1/250, record_date := "2025-01-01",
      session := "AM", note := none, tags := none, price_per_litre := none,
      deleted := false, owner_id := some 1, created_at := "t1",
      edited_at := none }
  , { id := 2, cow_number := "1", litres := 1/250, record_date := "2025-01-01",
      session := "PM", note := none, tags := none, price_per_litre := none,
      deleted := false, owner_id := some 1, created_at := "t2",
      edited_at := none } ]

/-- C2, counterexample.  `row.total = round(sum(row.cells), 2)` fails: with
litres 0.004 in both sessions the emitted cells are `[0.0, 0.0]`
(`round(sum(cells), 2) = 0.0`) but the code's total is
`round(0.004 + 0.004, 2) = 0.01`. -/
theorem c2_total_counterexample :
    ¬ ∀ row ∈ (buildPivot tinyLitresDb 1 7).2,
        row.total = round2 row.cells.sum := by
  decide

/-- C2, amended.  The code sums the *unrounded* per-(date, session) group sums
at full precision and rounds once (`total += v` with the unrounded `v`,
app.py:1405): every row's total is `round2` of the sum of its raw cells, and
its cells are the raw cells rounded individually — which can differ from
`round2` of the sum of the rounded cells. -/
theorem c2_total_amended (db : MilkDb) (owner : Nat) (n : Nat) :
    ∀ row ∈ (buildPivot db owner n).2,
      row.total =
          round2 (rawCells db owner (buildPivot db owner n).1 row.cow).sum ∧
        row.cells =
          (rawCells db owner (buildPivot db owner n).1 row.cow).map round2 := by
  intro row hrow
  obtain ⟨cow, _, rfl⟩ := mem_rows db owner n hrow
  exact ⟨rfl, rfl⟩

/-- C2, witness for the amended theorem at the scenario store. -/
theorem c2_total_amended_witness :
    (PivotRow.mk "2" [5, 3] 8).total =
      round2 (rawCells scenarioDb 1 (buildPivot scenarioDb 1 1).1
        (PivotRow.mk "2" [5, 3] 8).cow).sum :=
  (c2_total_amended scenarioDb 1 1 (PivotRow.mk "2" [5, 3] 8) (by decide)).1

/-! ## Claim C3: the pivot grid is total and dense -/

/-- C3.  The pivot is a total, dense grid: an owner with no non-deleted dates
gets `([], [])`; every emitted row lists exactly
`len(dates) * len(sessions)` cells, laid out date-major with the fixed
session order; and a `(cow, date, session)` triple with no stored record
contributes exactly `0.0`. -/
theorem c3_dense_grid (db : MilkDb) (owner : Nat) (n : Nat) :
    (distinctDates db owner = [] → buildPivot db owner n = ([], [])) ∧
    (∀ row ∈ (buildPivot db owner n).2,
      row.cells =
          (buildPivot db owner n).1.flatMap
            (fun d => pivotSessions.map
              (fun s => round2 (groupSum db owner row.cow d s))) ∧
        row.cells.length =
          (buildPivot db owner n).1.length * pivotSessions.length) ∧
    (∀ cow d s, milkGroup db owner cow d s = [] →
      round2 (groupSum db owner cow d s) = 0) := by
  refine ⟨?_, ?_, ?_⟩
  · intro h
    have hdates : pivotDates db owner n = [] := by
      unfold pivotDates sortedDatesAsc
      rw [h]
      simp
    unfold buildPivot
    rw [hdates]
    rfl
  · intro row hrow
    obtain ⟨cow, _, rfl⟩ := mem_rows db owner n hrow
    have hfst : (buildPivot db owner n).1 = pivotDates db owner n := rfl
    have hcells : (mkRow db owner (pivotDates db owner n) cow).cells
        = (rawCells db owner (pivotDates db owner n) cow).map round2 := rfl
    have hcow : (mkRow db owner (pivotDates db owner n) cow).cow = cow := rfl
    refine ⟨?_, ?_⟩
    · rw [hcells, hcow, hfst]
      simp [rawCells, List.map_flatMap, Function.comp_def]
    · rw [hcells, hfst, List.length_map, length_rawCells]
  · intro cow d s h
    unfold groupSum
    rw [h]
    decide

/-- C3, witness: at the scenario store, cow 10 has no `PM` record on
2025-01-01 and its second cell is exactly `0.0`; the rows are two dense
4-cell-per-date grids of width `1 * 2`. -/
theorem c3_dense_grid_witness :
    round2 (groupSum scenarioDb 1 "10" "2025-01-01" "PM") = 0 ∧
      (PivotRow.mk "10" [7, 0] 7).cells.length =
        (buildPivot scenarioDb 1 1).1.length * pivotSessions.length :=
  ⟨(c3_dense_grid scenarioDb 1 1).2.2 "10" "2025-01-01" "PM" (by decide),
   ((c3_dense_grid scenarioDb 1 1).2.1 (PivotRow.mk "10" [7, 0] 7)
      (by decide)).2⟩

/-! ## Claim C4: window-size handling -/

/-- A store with a single record for owner 1, so the pivot has one date. -/
def oneRecordDb : MilkDb :=
  [ { id := 1, cow_number := "5", litres := 2, record_date := "2025-02-03",
      session := "AM", note := none, tags := none, price_per_litre := none,
      deleted := false, owner_id := some 1, created_at := "t1",
      edited_at := none } ]

/-- C4, counterexample.  The requested window `"0"` parses to 0 and the claim
would bound the date count by `min(0, 90) = 0`; but the code clamps the window
up to 1 (`max(1, min(last, 90))`, app.py:1371) and an owner with one recorded
date receives one date. -/
theorem c4_window_counterexample :
    ¬ ((recordsScreenPivot oneRecordDb 1 (some "0")).1.length ≤
        (min (parseLast (some "0")) 90).toNat) := by
  decide

/-- C4, amended.  The effective window is `clamp(parse(raw))`, always in
`[1, 90]` — parse failures default to 7 and out-of-range values are clamped,
never rejected.  The dates returned have length at most
`min(effective window, 90)`, are strictly ascending in SQLite TEXT order and
duplicate-free; and whenever the requested integer window is at least 1, the
originally claimed bound `min(window_size, 90)` does hold. -/
theorem c4_window_amended (db : MilkDb) (owner : Nat) (raw : Option String) :
    1 ≤ clampLast (parseLast raw) ∧ clampLast (parseLast raw) ≤ 90 ∧
    (recordsScreenPivot db owner raw).1.length ≤
      min (clampLast (parseLast raw)) 90 ∧
    List.Sorted dateLT (recordsScreenPivot db owner raw).1 ∧
    (recordsScreenPivot db owner raw).1.Nodup ∧
    (∀ w : Int, parseLast raw = w → 1 ≤ w →
      ((recordsScreenPivot db owner raw).1.length : Int) ≤ min w 90) := by
  have hprops := pivotDates_props db owner (clampLast (parseLast raw))
  have hlen : (recordsScreenPivot db owner raw).1.length ≤
      clampLast (parseLast raw) := hprops.2.2
  have hclamp1 : 1 ≤ clampLast (parseLast raw) := by
    unfold clampLast
    omega
  have hclamp90 : clampLast (parseLast raw) ≤ 90 := by
    unfold clampLast
    omega
  refine ⟨hclamp1, hclamp90, le_min hlen (le_trans hlen hclamp90),
    hprops.1, hprops.2.1, ?_⟩
  intro w hw h1
  have : clampLast (parseLast raw) = (min w 90).toNat := by
    rw [hw] at *
    unfold clampLast
    omega
  omega

/-- C4, witness: the amended bounds at a concrete store and the request
`last=5`. -/
theorem c4_window_amended_witness :
    (recordsScreenPivot oneRecordDb 1 (some "5")).1.length ≤
        min (clampLast (parseLast (some "5"))) 90 ∧
      ((recordsScreenPivot oneRecordDb 1 (some "5")).1.length : Int) ≤
        min 5 90 :=
  ⟨(c4_window_amended oneRecordDb 1 (some "5")).2.2.1,
   (c4_window_amended oneRecordDb 1 (some "5")).2.2.2.2.2 5 (by decide)
     (by decide)⟩

/-! ## Claim C5: cow ordering -/

/-- Three cows `"10"`, `"2"`, `"abc"` recorded on the same date for owner 1. -/
def mixedCowsDb : MilkDb :=
  [ { id := 1, cow_number := "10", litres := 1, record_date := "2025-01-01",
      session := "AM", note := none, tags := none, price_per_litre := none,
      deleted := false, owner_id := some 1, created_at := "t1",
      edited_at := none }
  , { id := 2, cow_number := "2", litres := 1, record_date := "2025-01-01",
      session := "AM", note := none, tags := none, price_per_litre := none,
      deleted := false, owner_id := some 1, created_at := "t2",
      edited_at := none }
  , { id := 3, cow_number := "abc", litres := 1, record_date := "2025-01-01",
      session := "AM", note := none, tags := none, price_per_litre := none,
      deleted := false, owner_id := some 1, created_at := "t3",
      edited_at := none } ]

/-- C5.  Pivot rows are ordered by the key `(0, int(cow))` when the cow
identifier parses as an integer and `(1, cow)` otherwise (`cowLE`), so numeric
identifiers come first in ascending numeric order followed by non-numeric
identifiers lexically; in particular cows `["10", "2", "abc"]` come out as
`["2", "10", "abc"]`. -/
theorem c5_cow_order :
    (∀ (db : MilkDb) (owner n : Nat),
      List.Sorted cowLE ((buildPivot db owner n).2.map (·.cow))) ∧
    (buildPivot mixedCowsDb 1 7).2.map (·.cow) = ["2", "10", "abc"] := by
  constructor
  · intro db owner n
    rcases rows_cases db owner n with hc | hc <;> rw [hc]
    · rw [List.map_map]
      have hcomp : ((·.cow) ∘ mkRow db owner (pivotDates db owner n)) =
          (id : String → String) := funext (fun _ => rfl)
      rw [hcomp, List.map_id]
      exact List.sorted_insertionSort cowLE _
    · simp
  · decide

/-! ## Insertion paths and the table CHECK constraints -/

/-- Days per month, as validated by Python's `datetime.date`. -/
def monthDays (y m : Nat) : Nat :=
  if m = 2 then
    (if (y % 4 = 0 ∧ y % 100 ≠ 0) ∨ y % 400 = 0 then 29 else 28)
  else if m = 4 ∨ m = 6 ∨ m = 9 ∨ m = 11 then 30 else 31

/-- `date.fromisoformat(record_date_str)` (app.py:1154): accepts exactly
`YYYY-MM-DD` with a calendar-valid year/month/day, else raises `ValueError`. -/
def validDate (s : String) : Bool :=
  match s.data with
  | [y1, y2, y3, y4, '-', m1, m2, '-', d1, d2] =>
    if ([y1, y2, y3, y4, m1, m2, d1, d2].all (·.isDigit)) then
      let y := digitsVal [y1, y2, y3, y4]
      let m := digitsVal [m1, m2]
      let d := digitsVal [d1, d2]
      decide (1 ≤ y ∧ 1 ≤ m ∧ m ≤ 12 ∧ 1 ≤ d ∧ d ≤ monthDays y m)
    else false
  | _ => false

/-- The CHECK constraints of the `milk_records` table as created by `init_db`
(app.py:376-391): `litres >= 0`, `session IN ('AM','PM')`,
`price_per_litre IS NULL OR price_per_litre >= 0` (a SQL `NULL` price passes,
hence the `getD 0`). -/
def milkRowOk (r : MilkRecord) : Prop :=
  0 ≤ r.litres ∧ (r.session = "AM" ∨ r.session = "PM") ∧
    0 ≤ r.price_per_litre.getD 0

instance : DecidablePred milkRowOk := fun r => by
  unfold milkRowOk
  infer_instance

/-- `INSERT INTO milk_records ...`: SQLite enforces the CHECK constraints and
raises `IntegrityError` (modelled as `none`) when they fail. -/
def insertMilk (db : MilkDb) (r : MilkRecord) : Option MilkDb :=
  if milkRowOk r then some (db ++ [r]) else none

/-- The AUTOINCREMENT id assigned to a newly inserted row. -/
def nextId (db : MilkDb) : Nat :=
  db.foldl (fun m r => max m r.id) 0 + 1

/-- The row built by `add_record` (app.py:1162-1166): cow stripped, empty
note/tags stored as `NULL`, `deleted` defaulting to 0, `edited_at` `NULL`. -/
def newMilkRecord (db : MilkDb) (cow : String) (litres : ℚ)
    (record_date s note tags : String) (owner : Option Nat)
    (price : Option ℚ) (now : String) : MilkRecord :=
  { id := nextId db, cow_number := pyStrip cow, litres := litres,
    record_date := record_date, session := s, note := stripOrNone note,
    tags := stripOrNone tags, price_per_litre := price, deleted := false,
    owner_id := owner, created_at := now, edited_at := none }

/-- `session_val if session_val in ("AM","PM") else "AM"` (app.py:1155-1156):
a session outside {AM, PM} is silently coerced to `"AM"`. -/
def coerceSession (session_val : String) : String :=
  if session_val = "AM" ∨ session_val = "PM" then session_val else "AM"

/-- `add_record` (app.py:1153-1166): validate the date, silently coerce the
session, reject a negative price with `ValueError`, then insert (subject to
the table CHECKs).  `none` models any raised exception; the caller decides
whether it is caught.  The float parsing of `litres`/`price_per_litre`
performed by callers is abstracted into the rational arguments. -/
def add_record (db : MilkDb) (cow : String) (litres : ℚ)
    (record_date_str session_val note tags : String) (owner : Option Nat)
    (price_per_litre : Option ℚ) (now : String) : Option MilkDb :=
  if validDate record_date_str then
    match price_per_litre with
    | some p =>
      if p < 0 then none
      else insertMilk db
        (newMilkRecord db cow litres record_date_str
          (coerceSession session_val) note tags owner (some p) now)
    | none =>
      insertMilk db
        (newMilkRecord db cow litres record_date_str
          (coerceSession session_val) note tags owner none now)
  else none

/-- The `/add` form handler (app.py:1325-1362).  `litres?` is the result of
`float(litres)` (`none` = parse failure) and `price?` the result of parsing
the optional price field (`none` = parse failure, `some none` = field left
empty).  Every rejected branch flashes an error and leaves the store
unchanged, as does any exception escaping `add_record`. -/
def addFormSubmit (db : MilkDb) (cow : String) (litres? : Option ℚ)
    (price? : Option (Option ℚ)) (session_val note tags record_date : String)
    (owner : Option Nat) (now : String) : MilkDb :=
  if pyStrip cow = "" then db
  else
    match litres? with
    | none => db
    | some lv =>
      if lv < 0 then db
      else
        match price? with
        | none => db
        | some pv =>
          if pv.getD 0 < 0 then db
          else
            (add_record db cow lv record_date session_val note tags owner pv
              now).getD db

/-- One line of `/bulk` (app.py:1480-1499): the parsed fields are handed to
`add_record` inside `try: ... except Exception: continue`, so a failing line
leaves the store unchanged. -/
def bulkAddLine (db : MilkDb) (cow : String) (litres : ℚ) (d s tags : String)
    (owner : Option Nat) (price : Option ℚ) (now : String) : MilkDb :=
  (add_record db cow litres d s "" tags owner price now).getD db

/-- One row of the CSV import (app.py:1514-1527): `add_record` inside
`try: ... except Exception: pass`. -/
def importCsvRow (db : MilkDb) (cow : String) (litres : ℚ)
    (record_date session_val note tags : String) (owner : Option Nat)
    (price : Option ℚ) (now : String) : MilkDb :=
  (add_record db cow litres record_date session_val note tags owner price
    now).getD db

/-- No row of the store has negative litres. -/
def noNegLitres (db : MilkDb) : Prop :=
  ∀ r ∈ db, 0 ≤ r.litres

instance : DecidablePred noNegLitres := fun db => by
  unfold noNegLitres
  infer_instance

theorem add_record_some (db : MilkDb) {cow : String} {litres : ℚ}
    {record_date_str session_val note tags : String} {owner : Option Nat}
    {price : Option ℚ} {now : String} {db' : MilkDb}
    (h : add_record db cow litres record_date_str session_val note tags owner
      price now = some db') :
    ∃ r : MilkRecord, milkRowOk r ∧ r.litres = litres ∧ db' = db ++ [r] := by
  unfold add_record at h
  split at h
  · split at h
    · split at h
      · exact absurd h (by simp)
      · unfold insertMilk at h
        split at h
        · exact ⟨_, by assumption, rfl, (Option.some_inj.1 h).symm⟩
        · exact absurd h (by simp)
    · unfold insertMilk at h
      split at h
      · exact ⟨_, by assumption, rfl, (Option.some_inj.1 h).symm⟩
      · exact absurd h (by simp)
  · exact absurd h (by simp)

theorem add_record_neg_litres (db : MilkDb) {cow : String} {litres : ℚ}
    {record_date_str session_val note tags : String} {owner : Option Nat}
    {price : Option ℚ} {now : String} (hneg : litres < 0) :
    add_record db cow litres record_date_str session_val note tags owner
      price now = none := by
  rcases h : add_record db cow litres record_date_str session_val note tags
      owner price now with _ | db'
  · rfl
  · obtain ⟨r, hok, hl, _⟩ := add_record_some db h
    exact absurd (hl ▸ hok.1) (not_le.2 hneg)

theorem noNeg_append_add_record {db db' : MilkDb} (h : noNegLitres db)
    {cow : String} {litres : ℚ} {d sv note tags : String} {owner : Option Nat}
    {price : Option ℚ} {now : String}
    (hs : add_record db cow litres d sv note tags owner price now = some db') :
    noNegLitres db' := by
  obtain ⟨r, hok, _, rfl⟩ := add_record_some db hs
  intro x hx
  rcases List.mem_append.1 hx with hx | hx
  · exact h x hx
  · rw [List.mem_singleton.1 hx]
    exact hok.1

theorem noNeg_add_record_getD (db : MilkDb) (h : noNegLitres db)
    (cow : String) (litres : ℚ) (d sv note tags : String) (owner : Option Nat)
    (price : Option ℚ) (now : String) :
    noNegLitres ((add_record db cow litres d sv note tags owner price
      now).getD db) := by
  rcases hs : add_record db cow litres d sv note tags owner price now
    with _ | db'
  · exact h
  · exact noNeg_append_add_record h hs

/-! ## Claim C8: negative litres are rejected on every insertion path -/

/-- C8.  A record with negative litres (such as -1) is never persisted: on the
single-record form, negative litres fail validation before `add_record`
(app.py:1338-1343); on bulk add and CSV import, the `litres >= 0` CHECK of the
table makes the insert raise, the surrounding `except` swallows it, and the
store is unchanged.  Consequently a store without negative litres still has
none after any attempted insertion, and an attempt with negative litres is a
no-op on every path. -/
theorem c8_negative_litres_rejected (db : MilkDb) (h : noNegLitres db) :
    (∀ cow litres? price? sv note tags d owner now,
      noNegLitres (addFormSubmit db cow litres? price? sv note tags d owner
        now)) ∧
    (∀ cow litres d sv tags owner price now,
      noNegLitres (bulkAddLine db cow litres d sv tags owner price now)) ∧
    (∀ cow litres d sv note tags owner price now,
      noNegLitres (importCsvRow db cow litres d sv note tags owner price
        now)) ∧
    (∀ cow (litres : ℚ) d sv tags owner price now, litres < 0 →
      bulkAddLine db cow litres d sv tags owner price now = db) ∧
    (∀ cow (litres : ℚ) d sv note tags owner price now, litres < 0 →
      importCsvRow db cow litres d sv note tags owner price now = db) ∧
    (∀ cow (lv : ℚ) price? sv note tags d owner now, lv < 0 →
      addFormSubmit db cow (some lv) price? sv note tags d owner now = db) := by
  refine ⟨?_, ?_, ?_, ?_, ?_, ?_⟩
  · intro cow litres? price? sv note tags d owner now
    unfold addFormSubmit
    by_cases hcw : pyStrip cow = ""
    · rw [if_pos hcw]; exact h
    · rw [if_neg hcw]
      rcases litres? with _ | lv
      · exact h
      · by_cases hl : lv < 0
        · simpa [hl] using h
        · rcases price? with _ | pv
          · simpa [hl] using h
          · by_cases hp : pv.getD 0 < 0
            · simpa [hl, hp] using h
            · simpa [hl, hp] using
                noNeg_add_record_getD db h cow lv d sv note tags owner pv now
  · intro cow litres d sv tags owner price now
    exact noNeg_add_record_getD db h cow litres d sv "" tags owner price now
  · intro cow litres d sv note tags owner price now
    exact noNeg_add_record_getD db h cow litres d sv note tags owner price now
  · intro cow litres d sv tags owner price now hneg
    unfold bulkAddLine
    rw [add_record_neg_litres db hneg]
    rfl
  · intro cow litres d sv note tags owner price now hneg
    unfold importCsvRow
    rw [add_record_neg_litres db hneg]
    rfl
  · intro cow lv price? sv note tags d owner now hneg
    unfold addFormSubmit
    by_cases hcw : pyStrip cow = ""
    · rw [if_pos hcw]
    · rw [if_neg hcw]
      simp only [if_pos hneg]

/-- C8, witness: the concrete attempted insertions of litres `-1` at an
initially clean one-record store leave it unchanged. -/
theorem c8_negative_litres_rejected_witness :
    bulkAddLine oneRecordDb "9" (-1) "2025-01-01" "AM" "" (some 1) none "t" =
        oneRecordDb ∧
      importCsvRow oneRecordDb "9" (-1) "2025-01-01" "AM" "" "" (some 1) none
        "t" = oneRecordDb ∧
      addFormSubmit oneRecordDb "9" (some (-1)) (some none) "AM" "" ""
        "2025-01-01" (some 1) "t" = oneRecordDb :=
  ⟨(c8_negative_litres_rejected oneRecordDb (by decide)).2.2.2.1 "9" (-1)
      "2025-01-01" "AM" "" (some 1) none "t" (by norm_num),
   (c8_negative_litres_rejected oneRecordDb (by decide)).2.2.2.2.1 "9" (-1)
      "2025-01-01" "AM" "" "" (some 1) none "t" (by norm_num),
   (c8_negative_litres_rejected oneRecordDb (by decide)).2.2.2.2.2 "9" (-1)
      (some none) "AM" "" "" "2025-01-01" (some 1) "t" (by norm_num)⟩

/-! ## Claim C10: out-of-range sessions are coerced, not rejected -/

/-- C10, counterexample.  The claim quantifies over *every* call with a
session outside {AM, PM}; but a call whose litres are negative is rejected by
the table CHECK even though its session `"XX"` is outside the set, so "the
record is not rejected" fails without further hypotheses. -/
theorem c10_session_counterexample :
    ¬ ("XX" = "AM" ∨ "XX" = "PM") ∧
      add_record [] "1" (-1) "2025-01-01" "XX" "" "" (some 1) none "t" =
        none :=
  ⟨by decide, add_record_neg_litres [] (by norm_num)⟩

/-- C10, amended.  For every call to `add_record` whose *other* fields are
valid (parseable date, non-negative litres, absent or non-negative price), a
session value outside {AM, PM} does not cause rejection: the record is
inserted with the session silently coerced to `"AM"` and all other fields
stored as the code always stores them (cow stripped, empty note/tags made
`NULL`). -/
theorem c10_session_amended (db : MilkDb) (cow : String) (litres : ℚ)
    (date sess note tags : String) (owner : Option Nat) (price : Option ℚ)
    (now : String) (hdate : validDate date = true) (hl : 0 ≤ litres)
    (hp : 0 ≤ price.getD 0) (hs : ¬ (sess = "AM" ∨ sess = "PM")) :
    add_record db cow litres date sess note tags owner price now =
      some (db ++
        [newMilkRecord db cow litres date "AM" note tags owner price now]) := by
  have hcs : coerceSession sess = "AM" := by
    unfold coerceSession
    rw [if_neg hs]
  have hok : ∀ p : Option ℚ, 0 ≤ p.getD 0 →
      milkRowOk (newMilkRecord db cow litres date "AM" note tags owner p
        now) :=
    fun p hp' => ⟨hl, Or.inl rfl, hp'⟩
  rcases price with _ | p
  · simp only [add_record, hdate, if_true, hcs, insertMilk]
    rw [if_pos (hok none (by simp))]
  · have hp' : ¬ p < 0 := not_lt.2 (by simpa using hp)
    simp only [add_record, hdate, if_true, hcs, insertMilk]
    rw [if_neg hp', if_pos (hok (some p) hp)]

/-- C10, witness: a concrete call with session `"XX"` and valid other fields
is stored with session `"AM"`. -/
theorem c10_session_amended_witness :
    add_record [] "7" (2 : ℚ) "2025-01-01" "XX" "note" "" (some 1) none "t0" =
      some ([] ++
        [newMilkRecord [] "7" 2 "2025-01-01" "AM" "note" "" (some 1) none
          "t0"]) :=
  c10_session_amended [] "7" 2 "2025-01-01" "XX" "note" "" (some 1) none "t0"
    (by decide) (by norm_num) (by norm_num) (by decide)

/-! ## Soft delete, restore, inline update (app.py:1168-1192) -/

/-- The `WHERE owner_id=? AND id=?` filter used by `update_record`,
`soft_delete_record` and `restore_record`. -/
def recordMatches (rec_id owner : Nat) (r : MilkRecord) : Prop :=
  r.owner_id = some owner ∧ r.id = rec_id

instance (rec_id owner : Nat) : DecidablePred (recordMatches rec_id owner) :=
  fun r => by
    unfold recordMatches
    infer_instance

/-- The effect of `soft_delete_record` (app.py:1186-1188) on one row:
`SET deleted=1, edited_at=?` on the targeted owner's row, all other rows and
fields untouched. -/
def softDelRow (rec_id owner : Nat) (now : String) (r : MilkRecord) :
    MilkRecord :=
  if recordMatches rec_id owner r then
    { r with deleted := true, edited_at := some now }
  else r

/-- `soft_delete_record` (app.py:1186-1188): an UPDATE, never a DELETE. -/
def soft_delete_record (db : MilkDb) (rec_id owner : Nat) (now : String) :
    MilkDb :=
  db.map (softDelRow rec_id owner now)

/-- The effect of `restore_record` (app.py:1190-1192) on one row:
`SET deleted=0, edited_at=?` on the targeted owner's row. -/
def restoreRow (rec_id owner : Nat) (now : String) (r : MilkRecord) :
    MilkRecord :=
  if recordMatches rec_id owner r then
    { r with deleted := false, edited_at := some now }
  else r

/-- `restore_record` (app.py:1190-1192). -/
def restore_record (db : MilkDb) (rec_id owner : Nat) (now : String) :
    MilkDb :=
  db.map (restoreRow rec_id owner now)

/-- The per-row effect of `update_record` (app.py:1168-1184): litres and
session only when provided (a falsy `session_val` is skipped, an invalid one
coerced to `"AM"`), note/tags always overwritten (empty becoming `NULL`),
price only when provided, `edited_at` always set. -/
def updateRow (litres? : Option ℚ) (session? : Option String)
    (note tags : String) (price? : Option ℚ) (now : String)
    (rec_id owner : Nat) (r : MilkRecord) : MilkRecord :=
  if recordMatches rec_id owner r then
    { r with
      litres := litres?.getD r.litres
      session := match session? with
        | some sv => coerceSession sv
        | none => r.session
      note := stripOrNone note
      tags := stripOrNone tags
      price_per_litre := match price? with
        | some p => some p
        | none => r.price_per_litre
      edited_at := some now }
  else r

/-- `update_record` (app.py:1168-1184): a negative provided price raises
`ValueError` before the UPDATE; the UPDATE itself re-checks the table CHECK
constraints on every modified row and raises (rolling back, `none`) if one
fails. -/
def update_record (db : MilkDb) (rec_id : Nat) (litres? : Option ℚ)
    (session? : Option String) (note tags : String) (owner : Nat)
    (price? : Option ℚ) (now : String) : Option MilkDb :=
  if price?.getD 0 < 0 then none
  else if ∀ r ∈ db, recordMatches rec_id owner r →
      milkRowOk (updateRow litres? session? note tags price? now rec_id owner
        r) then
    some (db.map (updateRow litres? session? note tags price? now rec_id
      owner))
  else none

theorem softDelRow_id (rec_id owner : Nat) (now : String) (r : MilkRecord) :
    (softDelRow rec_id owner now r).id = r.id := by
  unfold softDelRow
  split <;> rfl

theorem restoreRow_id (rec_id owner : Nat) (now : String) (r : MilkRecord) :
    (restoreRow rec_id owner now r).id = r.id := by
  unfold restoreRow
  split <;> rfl

theorem updateRow_id (litres? : Option ℚ) (session? : Option String)
    (note tags : String) (price? : Option ℚ) (now : String)
    (rec_id owner : Nat) (r : MilkRecord) :
    (updateRow litres? session? note tags price? now rec_id owner r).id =
      r.id := by
  unfold updateRow
  split <;> rfl

/-! ## Claim C9: records are never removed -/

/-- C9.  No exposed milk-record operation removes a row: soft delete, restore
and a successful update all preserve the id sequence exactly, and `add_record`
only appends.  `soft_delete_record` only sets `deleted=1` (and `edited_at`) on
the targeted owner's row and `restore_record` reverts it to `deleted=0`,
leaving every other field — and every non-targeted row — unchanged. -/
theorem c9_no_hard_delete :
    (∀ (db : MilkDb) (rec_id owner : Nat) (now : String),
      (soft_delete_record db rec_id owner now).map (·.id) =
        db.map (·.id)) ∧
    (∀ (db : MilkDb) (rec_id owner : Nat) (now : String),
      (restore_record db rec_id owner now).map (·.id) = db.map (·.id)) ∧
    (∀ (db : MilkDb) (rec_id : Nat) (litres? : Option ℚ)
        (session? : Option String) (note tags : String) (owner : Nat)
        (price? : Option ℚ) (now : String) (db' : MilkDb),
      update_record db rec_id litres? session? note tags owner price? now =
          some db' →
        db'.map (·.id) = db.map (·.id)) ∧
    (∀ (db : MilkDb) (cow : String) (litres : ℚ) (d sv note tags : String)
        (owner : Option Nat) (price : Option ℚ) (now : String) (db' : MilkDb),
      add_record db cow litres d sv note tags owner price now = some db' →
        ∃ r : MilkRecord, db' = db ++ [r]) ∧
    (∀ (rec_id owner : Nat) (now : String) (r : MilkRecord),
      ¬ recordMatches rec_id owner r →
        softDelRow rec_id owner now r = r ∧ restoreRow rec_id owner now r = r) ∧
    (∀ (rec_id owner : Nat) (now : String) (r : MilkRecord),
      recordMatches rec_id owner r →
        softDelRow rec_id owner now r =
            { r with deleted := true, edited_at := some now } ∧
          restoreRow rec_id owner now r =
            { r with deleted := false, edited_at := some now }) := by
  refine ⟨?_, ?_, ?_, ?_, ?_, ?_⟩
  · intro db rec_id owner now
    unfold soft_delete_record
    rw [List.map_map]
    exact List.map_congr_left (fun r _ => softDelRow_id rec_id owner now r)
  · intro db rec_id owner now
    unfold restore_record
    rw [List.map_map]
    exact List.map_congr_left (fun r _ => restoreRow_id rec_id owner now r)
  · intro db rec_id litres? session? note tags owner price? now db' h
    unfold update_record at h
    split at h
    · exact absurd h (by simp)
    · split at h
      · rw [← Option.some_inj.1 h, List.map_map]
        exact List.map_congr_left
          (fun r _ => updateRow_id litres? session? note tags price? now
            rec_id owner r)
      · exact absurd h (by simp)
  · intro db cow litres d sv note tags owner price now db' h
    obtain ⟨r, _, _, rfl⟩ := add_record_some db h
    exact ⟨r, rfl⟩
  · intro rec_id owner now r hm
    unfold softDelRow restoreRow
    rw [if_neg hm, if_neg hm]
    exact ⟨rfl, rfl⟩
  · intro rec_id owner now r hm
    unfold softDelRow restoreRow
    rw [if_pos hm, if_pos hm]
    exact ⟨rfl, rfl⟩

/-- C9, witness: the conditional clauses applied at the one-record store
(owner 1, record 1). -/
theorem c9_no_hard_delete_witness :
    ((update_record oneRecordDb 1 (some 3) none "" "" 1 none "t2").getD
        []).map (·.id) = oneRecordDb.map (·.id) ∧
      softDelRow 1 7 "t2" (oneRecordDb.get ⟨0, by decide⟩) =
        oneRecordDb.get ⟨0, by decide⟩ :=
  ⟨c9_no_hard_delete.2.2.1 oneRecordDb 1 (some 3) none "" "" 1 none "t2" _
      (by decide),
   (c9_no_hard_delete.2.2.2.2.1 1 7 "t2" (oneRecordDb.get ⟨0, by decide⟩)
      (by decide)).1⟩

/-! ## The schema migrator `init_db` (app.py:293-485): schema level -/

/-- `CREATE TABLE IF NOT EXISTS t (...)`: an absent table (`none`) is created
with the full desired column list; an existing one is left untouched. -/
def createTableIfNotExists (t : Option (List String)) (desired : List String) :
    List String :=
  t.getD desired

/-- The conditional `ALTER TABLE t ADD COLUMN c` block: `init_db` reads the
column list once (`cols = column_names(...)`) and adds each listed column
absent from that snapshot, appending it at the end of the table. -/
def addMissingColumns (t : Option (List String)) (desired adds : List String) :
    List String :=
  let cols := createTableIfNotExists t desired
  cols ++ adds.filter (fun c => !decide (c ∈ cols))

/-- `CREATE INDEX IF NOT EXISTS i` (also the `UNIQUE` variant). -/
def createIdx (idxs : List String) (i : String) : List String :=
  if i ∈ idxs then idxs else idxs ++ [i]

/-- `DROP INDEX IF EXISTS i` (app.py:370). -/
def dropIdx (idxs : List String) (i : String) : List String :=
  idxs.filter (fun x => decide (x ≠ i))

/-- A run of consecutive `CREATE INDEX IF NOT EXISTS` statements. -/
def createAllIdx (idxs : List String) (names : List String) : List String :=
  names.foldl createIdx idxs

/-- The indexes created by `init_db` after the `DROP INDEX` at app.py:370, in
source order (app.py:371-485). -/
def laterIdxNames : List String :=
  [ "idx_users_tenant_email"
  , "idx_milk_date", "idx_milk_cow", "idx_milk_sess", "idx_milk_del"
  , "idx_milk_owner"
  , "idx_cows_tag", "idx_cows_group", "idx_cows_owner"
  , "idx_health_cowdate", "idx_health_owner"
  , "idx_breed_cowdate", "idx_breed_owner" ]

/-- All index statements of `init_db` in source order: the unique index on
`tenant_mock_users` (app.py:322-324), the `DROP INDEX IF EXISTS
idx_users_email` (app.py:370), then the remaining creations. -/
def idxUp (idxs : List String) : List String :=
  createAllIdx (dropIdx (createIdx idxs "idx_tenant_mock_token")
    "idx_users_email") laterIdxNames

/-- The schema state `init_db` operates on: the column list of each table it
manages (`none` = table absent) and the set of secondary indexes. -/
structure Schema where
  tenants : Option (List String)
  tenant_mock_users : Option (List String)
  users : Option (List String)
  milk_records : Option (List String)
  cows : Option (List String)
  health_events : Option (List String)
  breeding_events : Option (List String)
  indexes : List String
deriving DecidableEq

/-- The desired column sets of the `CREATE TABLE` statements and the
conditional `ADD COLUMN` lists of `init_db`, table by table
(app.py:301-485). -/
def initDbSchema (s : Schema) : Schema :=
  { tenants := some (addMissingColumns s.tenants
      ["id", "slug", "name", "google_client_id", "created_at"]
      ["google_client_id"])
    tenant_mock_users := some (addMissingColumns s.tenant_mock_users
      ["id", "tenant_id", "email", "credential", "created_at"] [])
    users := some (addMissingColumns s.users
      ["id", "email", "password_hash", "role", "created_at", "tenant_id"]
      ["tenant_id"])
    milk_records := some (addMissingColumns s.milk_records
      ["id", "cow_number", "litres", "record_date", "session", "note", "tags",
        "price_per_litre", "deleted", "owner_id", "created_at", "edited_at"]
      ["session", "note", "tags", "price_per_litre", "deleted", "owner_id",
        "edited_at"])
    cows := some (addMissingColumns s.cows
      ["id", "tag", "name", "breed", "parity", "dob", "latest_calving",
        "group_name", "owner_id", "created_at", "edited_at"]
      ["name", "breed", "parity", "dob", "latest_calving", "group_name",
        "owner_id", "created_at", "edited_at"])
    health_events := some (addMissingColumns s.health_events
      ["id", "cow_tag", "event_date", "event_type", "details",
        "withdrawal_until", "protocol", "owner_id", "created_at", "edited_at"]
      ["details", "withdrawal_until", "protocol", "owner_id", "created_at",
        "edited_at"])
    breeding_events := some (addMissingColumns s.breeding_events
      ["id", "cow_tag", "event_date", "event_type", "sire", "details",
        "owner_id", "created_at", "edited_at"]
      ["sire", "details", "owner_id", "created_at", "edited_at"])
    indexes := idxUp s.indexes }

theorem mem_createIdx_self (l : List String) (i : String) : i ∈ createIdx l i := by
  unfold createIdx
  split
  · assumption
  · simp

theorem mem_createIdx_of_mem {l : List String} {j : String} (i : String)
    (h : j ∈ l) : j ∈ createIdx l i := by
  unfold createIdx
  split
  · exact h
  · exact List.mem_append_left _ h

theorem createIdx_eq_of_mem {l : List String} {i : String} (h : i ∈ l) :
    createIdx l i = l :=
  if_pos h

theorem not_mem_createIdx {l : List String} {j i : String} (hj : j ∉ l)
    (hne : j ≠ i) : j ∉ createIdx l i := by
  unfold createIdx
  split
  · exact hj
  · intro hmem
    rcases List.mem_append.1 hmem with hmem | hmem
    · exact hj hmem
    · exact hne (List.mem_singleton.1 hmem)

theorem mem_dropIdx {l : List String} {j : String} (i : String) (h : j ∈ l)
    (hne : j ≠ i) : j ∈ dropIdx l i :=
  List.mem_filter.2 ⟨h, by simpa using hne⟩

theorem not_mem_dropIdx_self (l : List String) (i : String) :
    i ∉ dropIdx l i := by
  intro h
  simpa using (List.mem_filter.1 h).2

theorem dropIdx_eq_of_not_mem {l : List String} {i : String} (h : i ∉ l) :
    dropIdx l i = l :=
  List.filter_eq_self.2 (fun a ha => by
    simp only [decide_eq_true_eq]
    rintro rfl
    exact h ha)

theorem mem_createAllIdx_of_mem {l : List String} {j : String}
    (h : j ∈ l) : ∀ (names : List String), j ∈ createAllIdx l names := by
  intro names
  induction names generalizing l with
  | nil => exact h
  | cons n rest ih => exact ih (mem_createIdx_of_mem n h)

theorem mem_createAllIdx_self {j : String} : ∀ {names : List String}
    (l : List String), j ∈ names → j ∈ createAllIdx l names
  | [], _, h => absurd h (List.not_mem_nil _)
  | n :: rest, l, h => by
    rcases List.mem_cons.1 h with rfl | h
    · exact mem_createAllIdx_of_mem (mem_createIdx_self l j) rest
    · exact mem_createAllIdx_self (createIdx l n) h

theorem not_mem_createAllIdx {j : String} : ∀ {names : List String}
    {l : List String}, j ∉ l → j ∉ names → j ∉ createAllIdx l names
  | [], _, hl, _ => hl
  | n :: rest, l, hl, hn => by
    have h1 : j ≠ n := fun h => hn (h ▸ List.mem_cons_self n rest)
    have h2 : j ∉ rest := fun h => hn (List.mem_cons_of_mem n h)
    show j ∉ createAllIdx (createIdx l n) rest
    exact not_mem_createAllIdx (not_mem_createIdx hl h1) h2

theorem createAllIdx_eq_of_forall_mem : ∀ {names : List String}
    {l : List String}, (∀ i ∈ names, i ∈ l) → createAllIdx l names = l
  | [], _, _ => rfl
  | n :: rest, l, h => by
    show createAllIdx (createIdx l n) rest = l
    rw [createIdx_eq_of_mem (h n (List.mem_cons_self n rest))]
    exact createAllIdx_eq_of_forall_mem
      (fun i hi => h i (List.mem_cons_of_mem n hi))

theorem idxUp_idem (l : List String) : idxUp (idxUp l) = idxUp l := by
  have htok : "idx_tenant_mock_token" ∈ idxUp l :=
    mem_createAllIdx_of_mem
      (mem_dropIdx _ (mem_createIdx_self l _) (by decide)) _
  have heml : "idx_users_email" ∉ idxUp l :=
    not_mem_createAllIdx (not_mem_dropIdx_self _ _) (by decide)
  have hrest : ∀ i ∈ laterIdxNames, i ∈ idxUp l :=
    fun i hi => mem_createAllIdx_self _ hi
  show createAllIdx (dropIdx (createIdx (idxUp l) "idx_tenant_mock_token")
    "idx_users_email") laterIdxNames = idxUp l
  rw [createIdx_eq_of_mem htok, dropIdx_eq_of_not_mem heml,
    createAllIdx_eq_of_forall_mem hrest]

theorem addMissingColumns_idem (t : Option (List String))
    (desired adds : List String) :
    addMissingColumns (some (addMissingColumns t desired adds)) desired adds =
      addMissingColumns t desired adds := by
  unfold addMissingColumns createTableIfNotExists
  set cols := t.getD desired with hcols
  simp only [Option.getD_some]
  have hnil : adds.filter
      (fun c => !decide (c ∈ cols ++ adds.filter
        (fun c => !decide (c ∈ cols)))) = [] := by
    rw [List.filter_eq_nil_iff]
    intro c hc
    simp only [Bool.not_eq_true', decide_eq_false_iff_not, not_not]
    by_cases hmem : c ∈ cols
    · exact List.mem_append_left _ hmem
    · exact List.mem_append_right _
        (List.mem_filter.2 ⟨hc, by simpa using hmem⟩)
  rw [hnil, List.append_nil]

theorem nodup_addMissingColumns {t : Option (List String)}
    {desired adds : List String} (hd : desired.Nodup) (ha : adds.Nodup)
    (ht : ∀ l ∈ t, l.Nodup) :
    (addMissingColumns t desired adds).Nodup := by
  unfold addMissingColumns createTableIfNotExists
  have hcols : (t.getD desired).Nodup := by
    rcases t with _ | l
    · exact hd
    · exact ht _ rfl
  refine hcols.append (ha.filter _) ?_
  intro c hc hcf
  have := (List.mem_filter.1 hcf).2
  simp only [Bool.not_eq_true', decide_eq_false_iff_not] at this
  exact this hc

theorem nodup_createIdx {l : List String} (h : l.Nodup) (i : String) :
    (createIdx l i).Nodup := by
  unfold createIdx
  split
  · exact h
  · exact h.append (List.nodup_singleton i)
      (fun a ha hai => by
        rw [List.mem_singleton.1 hai] at ha
        exact absurd ha (by assumption))

theorem nodup_createAllIdx : ∀ (names : List String) {l : List String},
    l.Nodup → (createAllIdx l names).Nodup
  | [], _, h => h
  | n :: rest, _, h => nodup_createAllIdx rest (nodup_createIdx h n)

theorem nodup_idxUp {l : List String} (h : l.Nodup) : (idxUp l).Nodup :=
  nodup_createAllIdx laterIdxNames
    ((nodup_createIdx h "idx_tenant_mock_token").filter _)

/-- The well-formedness each real SQLite database enjoys: every existing
table's columns are pairwise distinct, as are the index names. -/
def schemaWF (s : Schema) : Prop :=
  (∀ l ∈ s.tenants, l.Nodup) ∧ (∀ l ∈ s.tenant_mock_users, l.Nodup) ∧
    (∀ l ∈ s.users, l.Nodup) ∧ (∀ l ∈ s.milk_records, l.Nodup) ∧
    (∀ l ∈ s.cows, l.Nodup) ∧ (∀ l ∈ s.health_events, l.Nodup) ∧
    (∀ l ∈ s.breeding_events, l.Nodup) ∧ s.indexes.Nodup

instance : DecidablePred schemaWF := fun s => by
  unfold schemaWF
  infer_instance

/-! ## Claim C6: running the migration twice -/

/-- C6.  Running `init_db`'s schema migration twice in succession leaves the
schema exactly as after the first run (idempotence), and starting from a
well-formed schema it never creates a duplicate table (each table slot holds
a single column list), duplicate column, or duplicate index. -/
theorem c6_init_db_idempotent (s : Schema) :
    initDbSchema (initDbSchema s) = initDbSchema s ∧
      (schemaWF s → schemaWF (initDbSchema s)) := by
  constructor
  · unfold initDbSchema
    simp only [addMissingColumns_idem, idxUp_idem]
  · intro hwf
    obtain ⟨h1, h2, h3, h4, h5, h6, h7, h8⟩ := hwf
    refine ⟨?_, ?_, ?_, ?_, ?_, ?_, ?_, ?_⟩ <;>
      simp only [initDbSchema, Option.mem_def, Option.some.injEq,
        forall_eq']
    · exact nodup_addMissingColumns (by decide) (by decide) h1
    · exact nodup_addMissingColumns (by decide) (by decide) h2
    · exact nodup_addMissingColumns (by decide) (by decide) h3
    · exact nodup_addMissingColumns (by decide) (by decide) h4
    · exact nodup_addMissingColumns (by decide) (by decide) h5
    · exact nodup_addMissingColumns (by decide) (by decide) h6
    · exact nodup_addMissingColumns (by decide) (by decide) h7
    · exact nodup_idxUp h8

/-- The empty store a fresh deployment starts from. -/
def emptySchema : Schema :=
  { tenants := none, tenant_mock_users := none, users := none,
    milk_records := none, cows := none, health_events := none,
    breeding_events := none, indexes := [] }

/-- C6, witness: the fresh store is well formed and stays so after the
migration. -/
theorem c6_init_db_idempotent_witness :
    schemaWF emptySchema ∧ schemaWF (initDbSchema emptySchema) :=
  ⟨by decide, (c6_init_db_idempotent emptySchema).2 (by decide)⟩

/-! ## Claim C7: migrating an old `milk_records` table preserves the data -/

/-- A stored SQLite value. -/
inductive SqlValue where
  | null : SqlValue
  | int : Int → SqlValue
  | real : ℚ → SqlValue
  | text : String → SqlValue
deriving DecidableEq

/-- A table together with its rows; each row lists one value per column, in
column order. -/
structure DataTable where
  cols : List String
  rows : List (List SqlValue)
deriving DecidableEq

/-- `ALTER TABLE milk_records ADD COLUMN c ... DEFAULT v`: SQLite appends the
column and every pre-existing row reads the declared default (`NULL` when no
default is declared). -/
def addColumnRaw (t : DataTable) (c : String) (v : SqlValue) : DataTable :=
  { cols := t.cols ++ [c], rows := t.rows.map (fun r => r ++ [v]) }

/-- The conditional `ADD COLUMN`s of the `milk_records` block of `init_db`
(app.py:392-402) with their defaults: `session TEXT DEFAULT 'AM'`,
`deleted INTEGER DEFAULT 0`, everything else nullable with no default. -/
def milkAdds : List (String × SqlValue) :=
  [ ("session", .text "AM"), ("note", .null), ("tags", .null)
  , ("price_per_litre", .null), ("deleted", .int 0), ("owner_id", .null)
  , ("edited_at", .null) ]

/-- The full desired `milk_records` column list of the `CREATE TABLE`
statement (app.py:376-391). -/
def milkDesiredCols : List String :=
  ["id", "cow_number", "litres", "record_date", "session", "note", "tags",
    "price_per_litre", "deleted", "owner_id", "created_at", "edited_at"]

/-- The `milk_records` part of `init_db` at the data level (app.py:376-407):
create the table if absent (new tables start empty), then conditionally add
each later column, each conditional checking the column snapshot read at
app.py:392. -/
def milkMigrate (t? : Option DataTable) : DataTable :=
  let tb := t?.getD { cols := milkDesiredCols, rows := [] }
  let cols := tb.cols
  milkAdds.foldl
    (fun acc p => if p.1 ∈ cols then acc else addColumnRaw acc p.1 p.2) tb

/-- The adds that actually fire on a table with column snapshot `cols`. -/
def missingAdds (cols : List String) : List (String × SqlValue) :=
  milkAdds.filter (fun p => !decide (p.1 ∈ cols))

theorem foldl_addColumnRaw (cols : List String) :
    ∀ (adds : List (String × SqlValue)) (tb : DataTable),
      adds.foldl
          (fun acc p => if p.1 ∈ cols then acc else addColumnRaw acc p.1 p.2)
          tb =
        { cols := tb.cols ++
            (adds.filter (fun p => !decide (p.1 ∈ cols))).map Prod.fst,
          rows := tb.rows.map (fun r => r ++
            (adds.filter (fun p => !decide (p.1 ∈ cols))).map Prod.snd) }
  | [], tb => by
    have : (fun (r : List SqlValue) => r ++ ([] : List SqlValue)) = id :=
      funext (fun r => List.append_nil r)
    simp [this]
  | p :: rest, tb => by
    by_cases hp : p.1 ∈ cols
    · rw [List.foldl_cons, if_pos hp, foldl_addColumnRaw cols rest tb]
      simp [List.filter_cons, hp]
    · rw [List.foldl_cons, if_neg hp,
        foldl_addColumnRaw cols rest (addColumnRaw tb p.1 p.2)]
      have hfc : List.filter (fun q => !decide (q.1 ∈ cols)) (p :: rest) =
          p :: List.filter (fun q => !decide (q.1 ∈ cols)) rest := by
        simp [List.filter_cons, hp]
      rw [hfc]
      refine congrArg₂ DataTable.mk ?_ ?_
      · simp [addColumnRaw, List.append_assoc]
      · simp only [addColumnRaw, List.map_map, List.map_cons]
        refine List.map_congr_left (fun r _ => ?_)
        simp [Function.comp, List.append_assoc]

/-- C7.  Running the `milk_records` migration against a table created under an
older schema: every column of the conditional-add set that is missing is
appended (with its declared default — `'AM'` for `session`, `0` for
`deleted`, `NULL` otherwise — visible in all pre-existing rows), every
pre-existing column keeps its position and every pre-existing row keeps all
its values (the old row is a prefix of the new row), and no column is dropped
or renamed. -/
theorem c7_migration_preserves_data (t : DataTable) :
    ((milkMigrate (some t)).cols =
        t.cols ++ (missingAdds t.cols).map Prod.fst) ∧
      ((milkMigrate (some t)).rows =
        t.rows.map (fun r => r ++ (missingAdds t.cols).map Prod.snd)) ∧
      (∀ p ∈ milkAdds, p.1 ∈ (milkMigrate (some t)).cols) := by
  have hchar : milkMigrate (some t) =
      { cols := t.cols ++ (missingAdds t.cols).map Prod.fst,
        rows := t.rows.map
          (fun r => r ++ (missingAdds t.cols).map Prod.snd) } := by
    unfold milkMigrate missingAdds
    exact foldl_addColumnRaw t.cols milkAdds t
  refine ⟨by rw [hchar], by rw [hchar], ?_⟩
  intro p hp
  rw [hchar]
  by_cases hmem : p.1 ∈ t.cols
  · exact List.mem_append_left _ hmem
  · refine List.mem_append_right _ ?_
    exact List.mem_map.2 ⟨p, List.mem_filter.2 ⟨hp, by simpa using hmem⟩, rfl⟩

/-- A `milk_records` table as an old release created it, with one stored
row. -/
def oldMilkTable : DataTable :=
  { cols := ["id", "cow_number", "litres", "record_date", "created_at"],
    rows := [[.int 1, .text "7", .real 5, .text "2025-01-01", .text "t0"]] }

/-- C7, witness: migrating the old one-row table appends exactly the seven
later columns with their defaults, keeps the old row's values as a prefix,
and ends with every conditional column present. -/
theorem c7_migration_preserves_data_witness :
    (milkMigrate (some oldMilkTable)).rows =
        oldMilkTable.rows.map
          (fun r => r ++ (missingAdds oldMilkTable.cols).map Prod.snd) ∧
      ("session", SqlValue.text "AM") ∈ milkAdds ∧
      "session" ∈ (milkMigrate (some oldMilkTable)).cols :=
  ⟨(c7_migration_preserves_data oldMilkTable).2.1,
   by decide,
   (c7_migration_preserves_data oldMilkTable).2.2 ("session", .text "AM")
     (by decide)⟩
